import Mathlib

/-!
Verification development for the publisher-billing backend
(`apps/api/app`).  The Python sources are shallowly embedded as
executable Lean definitions: the money normalizer
(`services/money.py`), the change-history recorder
(`services/change_history_service.py`), the adjustment batch-update
engine (`services/invoice_line_item_service.py` and
`repositories/invoice_line_item_repository.py`), the mention parser
(`services/mention_service.py`), the comment-creation path
(`services/comment_service.py`), the notification creation functions
(`services/notification_service.py`), the notification queue helpers
(`services/notification_queue.py`) and the SSE event generator
(`api/v1/notifications.py`).
-/

deriving instance DecidableEq for Except

namespace PB

/-! ## Money normalizer (`services/money.py`)

`parse_money_2dp` does `Decimal(value)` (catching `InvalidOperation` /
`ValueError` and re-raising `ValueError`) followed by
`quantize(Decimal("0.01"), rounding=ROUND_HALF_UP)` outside the
`try` block.  We model Python `decimal.Decimal` values and the exact
constructor grammar of the `decimal` module: an optional sign, then
either `Infinity`/`Inf`, `NaN`/`sNaN` with an optional diagnostic
payload, or a coefficient with an optional fraction and exponent;
case-insensitive, with surrounding whitespace stripped and
underscores removed throughout. -/

/-- A Python `decimal.Decimal` value: a finite value `coeff * 10 ^ exp`,
a signed infinity, or a (quiet or signaling) NaN. -/
inductive PyDec
  | finite (coeff : Int) (exp : Int)
  | inf (neg : Bool)
  | nan (signaling : Bool)
deriving DecidableEq, Repr

/-- Errors raised by the Python money path: `ValueError` (raised by
`parse_money_2dp` itself) and `decimal.InvalidOperation` (raised by
`quantize`, not caught by `parse_money_2dp`). -/
inductive PyErr
  | valueError
  | invalidOperation
deriving DecidableEq, Repr

/-- Whitespace accepted (and stripped) around a decimal numeric string by
the Python `Decimal` constructor. -/
def isPyWs (c : Char) : Bool :=
  c = ' ' || c = '\t' || c = '\n' || c = '\x0d' ||
  c = '\x0b' || c = '\x0c' || c = '\xa0'

def isDigitChar (c : Char) : Bool := '0' ≤ c && c ≤ '9'

/-- Numeric value of a list of ASCII digits (most significant first). -/
def natOfDigits (l : List Char) : Nat :=
  l.foldl (fun a c => 10 * a + (c.toNat - '0'.toNat)) 0

/-- Optional leading sign; returns (negative?, rest). -/
def parseSign : List Char → Bool × List Char
  | '+' :: r => (false, r)
  | '-' :: r => (true, r)
  | l => (false, l)

/-- Optional exponent part `[eE][+-]?digits` that must consume the whole
rest of the string; `none` on malformed input, `some e` otherwise. -/
def parseExpPart : List Char → Option Int
  | [] => some 0
  | c :: r =>
    if c.toLower = 'e' then
      let (eneg, r₁) := parseSign r
      let ds := r₁.takeWhile isDigitChar
      let rest := r₁.dropWhile isDigitChar
      if ds.isEmpty || !rest.isEmpty then none
      else some (if eneg then -(natOfDigits ds : Int) else (natOfDigits ds : Int))
    else none

/-- Parse the part after the optional sign: `Infinity`/`Inf`, `NaN`/`sNaN`
with optional diagnostic digits, or `digits[.digits][exponent]`. -/
def parseBody (neg : Bool) (l : List Char) : Option PyDec :=
  let low := l.map Char.toLower
  if low = "infinity".toList || low = "inf".toList then
    some (.inf neg)
  else if low.take 3 = "nan".toList && (low.drop 3).all isDigitChar then
    some (.nan false)
  else if low.take 4 = "snan".toList && (low.drop 4).all isDigitChar then
    some (.nan true)
  else
    let ip := l.takeWhile isDigitChar
    let l₁ := l.dropWhile isDigitChar
    match l₁ with
    | '.' :: l₂ =>
      let fp := l₂.takeWhile isDigitChar
      let l₃ := l₂.dropWhile isDigitChar
      if ip.isEmpty && fp.isEmpty then none
      else
        match parseExpPart l₃ with
        | none => none
        | some e =>
          let m := natOfDigits (ip ++ fp)
          some (.finite (if neg then -(m : Int) else (m : Int)) (e - fp.length))
    | _ =>
      if ip.isEmpty then none
      else
        match parseExpPart l₁ with
        | none => none
        | some e =>
          let m := natOfDigits ip
          some (.finite (if neg then -(m : Int) else (m : Int)) e)

/-- The Python `Decimal(str)` constructor: strip surrounding whitespace,
remove underscores, then apply the numeric-string grammar.  `none`
models `decimal.InvalidOperation` raised by the constructor. -/
def pyDecOfString (s : String) : Option PyDec :=
  let noUnderscore := s.toList.filter (fun c => c ≠ '_')
  let stripped :=
    ((noUnderscore.dropWhile isPyWs).reverse.dropWhile isPyWs).reverse
  let (neg, body) := parseSign stripped
  parseBody neg body

/-- Round a magnitude `m` to a multiple of `d`, half up (`(m + d/2) / d`);
the magnitude half of Python `ROUND_HALF_UP`. -/
def roundHalfUpMag (m d : Nat) : Nat := (m + d / 2) / d

/-- Python `ROUND_HALF_UP` on integers scaled by `d`: round the magnitude
half up and re-apply the sign, so ties round away from zero. -/
def roundHalfUpInt (n : Int) (d : Nat) : Int :=
  if 0 ≤ n then (roundHalfUpMag n.natAbs d : Int)
  else -(roundHalfUpMag n.natAbs d : Int)

/-- `Decimal.quantize(Decimal("0.01"), rounding=ROUND_HALF_UP)` under the
default context (precision 28): quiet NaN propagates, signaling NaN and
infinities raise `InvalidOperation`, and a result whose coefficient
would exceed 28 digits (i.e. `10 ^ 28 ≤ |coeff|`) raises
`InvalidOperation`. -/
def quantize2dp : PyDec → Except PyErr PyDec
  | .nan false => .ok (.nan false)
  | .nan true => .error .invalidOperation
  | .inf _ => .error .invalidOperation
  | .finite c e =>
    let c' : Int :=
      if -2 ≤ e then c * (10 : Int) ^ (e + 2).toNat
      else roundHalfUpInt c ((10 : Nat) ^ (-2 - e).toNat)
    if (10 : Int) ^ 28 ≤ c'.natAbs then .error .invalidOperation
    else .ok (.finite c' (-2))

/-- `parse_money_2dp` from `services/money.py`: `Decimal(value)` with
`InvalidOperation`/`ValueError` re-raised as `ValueError`, then
`quantize` to two decimal places with `ROUND_HALF_UP` (any exception
from `quantize` propagates unchanged). -/
def parse_money_2dp (value : String) : Except PyErr PyDec :=
  match pyDecOfString value with
  | none => .error .valueError
  | some d => quantize2dp d

/-- Rational value of a finite Python decimal (`0` for NaN/infinity,
which have no rational value). -/
def PyDec.valQ : PyDec → ℚ
  | .finite c e => (c : ℚ) * (10 : ℚ) ^ (e : ℤ)
  | _ => 0

/-- Python `Decimal.__eq__`: numeric comparison.  Finite values compare
by value across scales, infinities by sign, and NaN compares unequal
to everything (including itself). -/
def PyDec.sameValue : PyDec → PyDec → Bool
  | .finite c₁ e₁, .finite c₂ e₂ =>
    let m := min e₁ e₂
    c₁ * (10 : Int) ^ (e₁ - m).toNat = c₂ * (10 : Int) ^ (e₂ - m).toNat
  | .inf a, .inf b => a = b
  | _, _ => false

/-! ## Change-history recorder (`services/change_history_service.py`)

`old_value` / `new_value` are JSON objects (Python dicts) holding only
the changed field(s); we model them as association lists of string
keys to string values and compare them with Python dict equality
(same key set, equal value at every key). -/

/-- A field-diff map (`old_value` / `new_value` payload): a Python dict
from field name to rendered value. -/
abbrev ValueMap := List (String × String)

/-- First binding for a key (Python dicts have unique keys, so the first
binding is the binding). -/
def vmGet (m : ValueMap) (k : String) : Option String :=
  (m.find? (fun p => p.1 = k)).map (fun p => p.2)

/-- Python `dict.__eq__`: equal key sets with equal values per key. -/
def pyDictEq (a b : ValueMap) : Bool :=
  (a.map Prod.fst ++ b.map Prod.fst).all (fun k => vmGet a k = vmGet b k)

/-- Python `old_value == new_value` where `old_value : dict | None` and
`new_value : dict` (`None == dict` is `False`). -/
def optValEq (old : Option ValueMap) (new : ValueMap) : Bool :=
  match old with
  | some o => pyDictEq o new
  | none => false

/-- A persisted `ChangeHistory` row. -/
structure HistoryEntry where
  entityType : String
  entityId : Nat
  oldValue : Option ValueMap
  newValue : ValueMap
  changedByUserId : Nat
deriving DecidableEq, Repr

/-- `record_change`: skips (persists nothing, returns `none`) when
`old_value == new_value`; otherwise persists one entry. -/
def record_change (entityType : String) (entityId : Nat)
    (oldValue : Option ValueMap) (newValue : ValueMap)
    (changedByUserId : Nat) : Option HistoryEntry :=
  if optValEq oldValue newValue then none
  else some ⟨entityType, entityId, oldValue, newValue, changedByUserId⟩

/-- `record_changes_batch`: filters the change list to the entries with
`old_value != new_value`; when the filtered list is empty it performs
no repository call at all (modeled as `none`), otherwise it performs
one multi-row insert of exactly the filtered entries. -/
def record_changes_batch (entityType : String)
    (changes : List (Nat × Option ValueMap × ValueMap))
    (changedByUserId : Nat) : Option (List HistoryEntry) :=
  let entries := changes.filterMap (fun c =>
    if optValEq c.2.1 c.2.2 then none
    else some (⟨entityType, c.1, c.2.1, c.2.2, changedByUserId⟩ : HistoryEntry))
  if entries.isEmpty then none else some entries

/-! ## Adjustment batch-update engine

`repositories/invoice_line_item_repository.py` (`batch_update_adjustments`)
and `services/invoice_line_item_service.py` (`batch_update_adjustments`).
The database is a list of `invoice_line_items` rows; Python dicts keyed
by integer ids are modeled with insertion-order semantics (`pyDict`). -/

/-- An `invoice_line_items` row (`models/invoice_line_item.py`); the
monetary columns are `NUMERIC(30, 15)` values. -/
structure Row where
  id : Nat
  invoiceId : Nat
  actualAmount : PyDec
  adjustments : PyDec
deriving DecidableEq, Repr

/-- Python dict insert: overwrite in place if the key exists, else append
(insertion order preserved, first-insertion position kept). -/
def pyDictInsert {β : Type} (k : Nat) (v : β) (m : List (Nat × β)) :
    List (Nat × β) :=
  if m.any (fun p => p.1 = k) then
    m.map (fun p => if p.1 = k then (k, v) else p)
  else m ++ [(k, v)]

/-- Python `dict(...)` built from a sequence of key-value pairs (later
bindings overwrite earlier ones). -/
def pyDict {β : Type} (l : List (Nat × β)) : List (Nat × β) :=
  l.foldl (fun m p => pyDictInsert p.1 p.2 m) []

/-- Lookup in a `pyDict` (unique keys, so the first hit is the binding). -/
def pyDictGet {β : Type} (m : List (Nat × β)) (k : Nat) : Option β :=
  (m.find? (fun p => p.1 = k)).map (fun p => p.2)

/-- Repository `batch_update_adjustments`: select the rows whose id is in
the update list and whose `invoice_id` matches, collect them into a
dict keyed by id, and return `[]` without mutating anything when the
dict size differs from the number of requested updates; otherwise
assign each row's `adjustments` from `dict(updates)` and return the
updated rows.  Returns (updated rows, resulting database). -/
def repo_batch_update_adjustments (db : List Row) (invoiceId : Nat)
    (updates : List (Nat × PyDec)) : List Row × List Row :=
  if updates.isEmpty then ([], db)
  else
    let ids := updates.map Prod.fst
    let matched := db.filter (fun r => ids.contains r.id && r.invoiceId = invoiceId)
    let items := pyDict (matched.map (fun r => (r.id, r)))
    if items.length ≠ updates.length then ([], db)
    else
      let updatesMap := pyDict updates
      let setAdj : Row → Row := fun r =>
        match pyDictGet updatesMap r.id with
        | some v => { r with adjustments := v }
        | none => r  -- unreachable: every matched id was requested
      let updatedItems := items.map (fun p => setAdj p.2)
      let newDb := db.map (fun r =>
        if ids.contains r.id && r.invoiceId = invoiceId then setAdj r else r)
      (updatedItems, newDb)

/-- `BatchUpdateError` (the only service-level batch exception class) and
the uncaught `decimal.InvalidOperation` that escapes the service when
`quantize` raises (the service only catches `ValueError`). -/
inductive SvcError
  | batchUpdateError (message : String) (invalidIds : List Nat)
  | invalidOperation
deriving DecidableEq, Repr

/-- The Python exception class of a service error (`type(e).__name__`). -/
def SvcError.kind : SvcError → String
  | .batchUpdateError _ _ => "BatchUpdateError"
  | .invalidOperation => "InvalidOperation"

/-- Decimal digits of a natural number, most significant first (fuel-based
so that it evaluates inside the kernel). -/
def natDigitsAux : Nat → Nat → List Char
  | 0, _ => []
  | _, 0 => []
  | fuel + 1, n =>
    natDigitsAux fuel (n / 10) ++ [Char.ofNat ('0'.toNat + n % 10)]

/-- Decimal string of a natural number. -/
def natToDecString (n : Nat) : String :=
  if n = 0 then "0" else String.mk (natDigitsAux (n + 1) n)

/-- Left-pad the decimal digits of `n` with zeros to `width` characters. -/
def natToPaddedString (n width : Nat) : String :=
  let ds := if n = 0 then ['0'] else natDigitsAux (n + 1) n
  String.mk (List.replicate (width - ds.length) '0' ++ ds)

/-- `str()` of an adjustments value as it comes back from the
`NUMERIC(30, 15)` column: the value rendered with exactly 15 fractional
digits (PostgreSQL rounds half away from zero when coercing to the
column scale; values written by this service have scale 2, so the
coercion is exact for them). -/
def str15 : PyDec → String
  | .nan _ => "NaN"
  | .inf neg => if neg then "-Infinity" else "Infinity"
  | .finite c e =>
    let c15 : Int :=
      if -15 ≤ e then c * (10 : Int) ^ (e + 15).toNat
      else roundHalfUpInt c ((10 : Nat) ^ (-15 - e).toNat)
    let m := c15.natAbs
    (if c15 < 0 then "-" else "") ++
      natToDecString (m / 10 ^ 15) ++ "." ++ natToPaddedString (m % 10 ^ 15) 15

/-- First phase of the service `batch_update_adjustments`: parse every raw
adjustment through `parse_money_2dp`, aborting at the first failure.
A `ValueError` is converted to `BatchUpdateError` naming the offending
id; an `InvalidOperation` (e.g. on `"Infinity"`) is not caught and
escapes. -/
def parse_all : List (Nat × String) → Except SvcError (List (Nat × PyDec))
  | [] => .ok []
  | (i, s) :: rest =>
    match parse_money_2dp s with
    | .error .valueError =>
      .error (.batchUpdateError
        ("Invalid adjustment for invoice_line_item_id " ++ natToDecString i) [i])
    | .error .invalidOperation => .error .invalidOperation
    | .ok d =>
      match parse_all rest with
      | .error e => .error e
      | .ok tail => .ok ((i, d) :: tail)

/-- A change triple `(entity_id, old_value, new_value)` as submitted to
the change-history recorder. -/
abbrev ChangeTriple := Nat × Option ValueMap × ValueMap

instance : DecidableEq (List ChangeTriple) := List.hasDecEq

/-- Observable outcome of one service `batch_update_adjustments` call:
the returned rows (or the raised error), the resulting database, the
change list submitted to `record_changes_batch` (`none` when the
recorder was not invoked), and the history rows actually inserted. -/
structure BatchOutcome where
  result : Except SvcError (List Row)
  db : List Row
  submitted : Option (List ChangeTriple)
  persisted : Option (List HistoryEntry)
deriving DecidableEq, Repr

/-- Service `batch_update_adjustments`: parse and validate every raw
adjustment, read the current values of the referenced rows scoped to
`invoice_id`, run the repository batch update (which enforces the
all-or-nothing ownership check), raise `BatchUpdateError` when it
returns no rows, build `(id, dict(adjustments=old), dict(adjustments=new))`
triples for the rows whose value actually changed (`old_adj is not None
and old_adj != ili.adjustments`, Python `Decimal` comparison), submit
them to `record_changes_batch` only when non-empty, and commit. -/
def invoice_line_item_batch_update (db : List Row) (invoiceId : Nat)
    (updates : List (Nat × String)) (currentUserId : Nat) : BatchOutcome :=
  match parse_all updates with
  | .error e => ⟨.error e, db, none, none⟩
  | .ok parsed =>
    let ids := parsed.map Prod.fst
    let oldItems := pyDict ((db.filter
      (fun r => ids.contains r.id && r.invoiceId = invoiceId)).map
      (fun r => (r.id, r.adjustments)))
    let (updatedItems, db') := repo_batch_update_adjustments db invoiceId parsed
    if updatedItems.isEmpty then
      ⟨.error (.batchUpdateError
          ("One or more invoice_line_item_ids not found or do not belong to invoice "
            ++ natToDecString invoiceId) []),
        db', none, none⟩
    else
      let changes : List ChangeTriple := updatedItems.filterMap (fun ili =>
        match pyDictGet oldItems ili.id with
        | some oldAdj =>
          if PyDec.sameValue oldAdj ili.adjustments then none
          else some (ili.id,
            some [("adjustments", str15 oldAdj)],
            [("adjustments", str15 ili.adjustments)])
        | none => none)
      let persisted :=
        if changes.isEmpty then none
        else record_changes_batch "invoice_line_item" changes currentUserId
      ⟨.ok updatedItems, db',
        if changes.isEmpty then none else some changes, persisted⟩

/-- Spec-side description of the history entry a returned row should
produce (for comparison with the service's behavior): look the row's
original up in the database by id; it yields a
`(entity_id, dict(adjustments=old), dict(adjustments=new))` triple
exactly when the adjustments value actually changed, and nothing
otherwise. -/
def specDelta (db : List Row) (ili : Row) : Option ChangeTriple :=
  match db.find? (fun r => r.id = ili.id) with
  | some orig =>
    if PyDec.sameValue orig.adjustments ili.adjustments then none
    else some (ili.id,
      some [("adjustments", str15 orig.adjustments)],
      [("adjustments", str15 ili.adjustments)])
  | none => none

/-! ## Mention parsing and resolution (`services/mention_service.py`) -/

/-- A `users` row (`models/user.py`): id, unique username, active flag. -/
structure MUser where
  id : Nat
  username : String
  isActive : Bool
deriving DecidableEq, Repr

/-- A character matched by `[A-Za-z0-9_]` in `MENTION_PATTERN`. -/
def isWordChar (c : Char) : Bool :=
  ('A' ≤ c && c ≤ 'Z') || ('a' ≤ c && c ≤ 'z') || isDigitChar c || c = '_'

/-- Lower-case a string (Python `str.lower` on the ASCII usernames this
system stores). -/
def lowerStr (s : String) : String := String.mk (s.toList.map Char.toLower)

/-- Scanner for `MENTION_PATTERN = (?<!\S)@([A-Za-z0-9_]{1,50})(?![A-Za-z0-9_])`:
an `@` preceded by nothing or by whitespace, followed by a maximal run
of 1 to 50 word characters, captures the run; a run of length 0 or of
more than 50 characters matches nothing (the trailing lookahead
rejects every shorter prefix).  `prev` is the character before the
scan position; the fuel argument (≥ remaining length) makes the
recursion structural. -/
def scanMentionsAux : Nat → List Char → Option Char → List String
  | 0, _, _ => []
  | _ + 1, [], _ => []
  | fuel + 1, '@' :: rest, prev =>
    let prevOk := match prev with
      | none => true
      | some p => p.isWhitespace
    if prevOk then
      let w := rest.takeWhile isWordChar
      let rest' := rest.dropWhile isWordChar
      if 1 ≤ w.length && w.length ≤ 50 then
        String.mk w ::
          scanMentionsAux fuel rest' (some (w.getLastD '@'))
      else scanMentionsAux fuel rest (some '@')
    else scanMentionsAux fuel rest (some '@')
  | fuel + 1, c :: rest, _ => scanMentionsAux fuel rest (some c)

/-- `parse_mentions`: all `MENTION_PATTERN` captures in order, deduplicated
case-insensitively keeping the first occurrence. -/
def parse_mentions (content : String) : List String :=
  let hits := scanMentionsAux content.length content.toList none
  (hits.foldl (fun (acc : List String × List String) u =>
    if acc.2.contains (lowerStr u) then acc
    else (acc.1 ++ [u], acc.2 ++ [lowerStr u])) ([], [])).1

/-- `resolve_mentions` backed by
`user_repository.get_users_by_usernames`: case-insensitive lookup over
active users; returns (found users, unresolved usernames). -/
def resolve_mentions (users : List MUser) (usernames : List String) :
    List MUser × List String :=
  if usernames.isEmpty then ([], [])
  else
    let lower := usernames.map lowerStr
    let found := users.filter
      (fun u => u.isActive && lower.contains (lowerStr u.username))
    let foundNames := found.map (fun u => lowerStr u.username)
    let unresolved := usernames.filter
      (fun n => !foundNames.contains (lowerStr n))
    (found, unresolved)

/-! ## Notification queue helpers (`services/notification_queue.py`) -/

/-- `NotificationTask`: the single dataclass with a task-type tag and
per-variant nullable fields, exactly as in the source. -/
structure NotificationTask where
  taskType : String
  mentionedUserIds : Option (List Nat) := none
  authorId : Option Nat := none
  commentId : Option Nat := none
  parentCommentId : Option Nat := none
  replyAuthorId : Option Nat := none
  replyCommentId : Option Nat := none
deriving DecidableEq, Repr

/-- `enqueue_mention_notifications`: returns the tasks pushed onto the
Redis list — nothing when the mentioned-id list is empty, otherwise a
single mention task. -/
def enqueue_mention_notifications (mentionedUserIds : List Nat)
    (authorId commentId : Nat) : List NotificationTask :=
  if mentionedUserIds.isEmpty then []
  else [{ taskType := "mention",
          mentionedUserIds := some mentionedUserIds,
          authorId := some authorId,
          commentId := some commentId }]

/-- `enqueue_reply_notification`: always pushes a single reply task. -/
def enqueue_reply_notification (parentCommentId replyAuthorId
    replyCommentId : Nat) : List NotificationTask :=
  [{ taskType := "reply",
     parentCommentId := some parentCommentId,
     replyAuthorId := some replyAuthorId,
     replyCommentId := some replyCommentId }]

/-! ## Comment creation (`services/comment_service.py`) -/

/-- A `comments` row (`models/comment.py`). -/
structure MComment where
  id : Nat
  content : String
  campaignId : Nat
  authorId : Nat
  parentId : Option Nat
deriving DecidableEq, Repr

/-- The state touched by `create_comment`: campaigns, users, comments,
`comment_mentions` rows `(comment_id, user_id)` and the next comment
primary key. -/
structure CommentState where
  campaigns : List Nat
  users : List MUser
  comments : List MComment
  mentions : List (Nat × Nat)
  nextCommentId : Nat
deriving DecidableEq, Repr

/-- Service-layer comment errors (`services/errors.py`). -/
inductive CommentErr
  | notFound (resource : String) (identifier : Nat)
  | forbidden (action resource : String)
deriving DecidableEq, Repr

/-- Observable outcome of `create_comment`: the created comment (or the
raised error), the resulting state, the mentioned users resolved from
the content, and the notification tasks pushed onto the notification
queue during the call. -/
structure CreateCommentOutcome where
  result : Except CommentErr MComment
  state : CommentState
  resolvedMentioned : List MUser
  enqueuedTasks : List NotificationTask
deriving DecidableEq, Repr

/-- `create_comment`: verify the campaign, validate the parent for a
reply (it must exist, belong to the same campaign and be top-level),
parse and resolve the mentions, then create the comment and its
mention rows and commit.  The source then only logs
`TODO: Notify users ... about mention in new comment` — no
notification task of any kind is enqueued on this path, which is why
`enqueuedTasks` is always `[]`. -/
def create_comment (st : CommentState) (content : String)
    (campaignId authorId : Nat) (parentId : Option Nat) :
    CreateCommentOutcome :=
  if !st.campaigns.contains campaignId then
    ⟨.error (.notFound "campaign" campaignId), st, [], []⟩
  else
    let parentCheck : Option CommentErr :=
      match parentId with
      | none => none
      | some pid =>
        match st.comments.find? (fun c => c.id = pid) with
        | none => some (.notFound "comment" pid)
        | some parent =>
          if parent.campaignId ≠ campaignId then some (.notFound "comment" pid)
          else if parent.parentId.isSome then some (.forbidden "reply to" "reply")
          else none
    match parentCheck with
    | some e => ⟨.error e, st, [], []⟩
    | none =>
      let usernames := parse_mentions content
      let (mentionedUsers, _unresolved) := resolve_mentions st.users usernames
      -- "# TODO: Implement notification system for mentioned users":
      -- the source logs and moves on; nothing reaches the queue.
      let cid := st.nextCommentId
      let comment : MComment := ⟨cid, content, campaignId, authorId, parentId⟩
      let st' : CommentState :=
        { st with
          comments := st.comments ++ [comment],
          mentions := st.mentions ++ mentionedUsers.map (fun u => (cid, u.id)),
          nextCommentId := cid + 1 }
      ⟨.ok comment, st', mentionedUsers, []⟩

/-! ## Notification creation (`services/notification_service.py`) -/

/-- A `notifications` row (`models/notification.py`), as created by the
worker. -/
structure MNotification where
  userId : Nat
  ntype : String
  message : String
  commentId : Nat
  actorId : Nat
deriving DecidableEq, Repr

/-- `create_mention_notifications`: one notification per mentioned user,
skipping any user whose id equals the author's; when nothing is left
it returns `[]` before touching the repository, otherwise it performs
one batch insert and returns the created rows. -/
def create_mention_notifications (mentionedUsers : List MUser)
    (author : MUser) (comment : MComment) : List MNotification :=
  let toCreate := mentionedUsers.filterMap (fun u =>
    if u.id = author.id then none
    else some
      { userId := u.id, ntype := "mention",
        message := "@" ++ author.username ++ " mentioned you in a comment",
        commentId := comment.id, actorId := author.id })
  if toCreate.isEmpty then [] else toCreate

/-- `create_reply_notification`: `none` (no row) when the reply author is
the parent comment's author, otherwise one notification for the parent
author. -/
def create_reply_notification (parentComment : MComment)
    (replyAuthor : MUser) (replyComment : MComment) : Option MNotification :=
  if parentComment.authorId = replyAuthor.id then none
  else some
    { userId := parentComment.authorId, ntype := "reply",
      message := "@" ++ replyAuthor.username ++ " replied to your comment",
      commentId := replyComment.id, actorId := replyAuthor.id }

/-! ## SSE gateway (`api/v1/notifications.py` `notification_stream`)

The broadcaster (`services/notification_broadcaster.py`) yields either
the synthesized heartbeat marker `\x7b"type": "heartbeat"\x7d` (on a 30 s
`get_message` timeout) or `json.loads` of a published notification
payload.  We model a received message as a string-keyed JSON object. -/

/-- A message received from the broadcaster subscription. -/
abbrev SseMsg := List (String × String)

/-- `message.get("type")`. -/
def msgGet (m : SseMsg) (k : String) : Option String :=
  (m.find? (fun p => p.1 = k)).map (fun p => p.2)

/-- The heartbeat marker the broadcaster's `message_generator` yields on
timeout. -/
def heartbeatMarker : SseMsg := [("type", "heartbeat")]

/-- JSON string escaping (`json.dumps` default for the characters these
payloads contain). -/
def jsonEscape (s : String) : String :=
  String.join (s.toList.map (fun c =>
    if c = '"' then "\\\"" else if c = '\\' then "\\\\" else String.mk [c]))

/-- `json.dumps` of a string-keyed, string-valued JSON object. -/
def jsonDumps (m : SseMsg) : String :=
  "\x7b" ++
    String.intercalate ", "
      (m.map (fun p => "\"" ++ jsonEscape p.1 ++ "\": \"" ++ jsonEscape p.2 ++ "\"")) ++
  "\x7d"

/-- One loop iteration of `event_generator`: a comment-only keep-alive
line when `message.get("type") == "heartbeat"`, otherwise a
`data: <JSON>` event; every event is terminated by a blank line. -/
def sse_event (m : SseMsg) : String :=
  if msgGet m "type" = some "heartbeat" then ": heartbeat\n\n"
  else "data: " ++ jsonDumps m ++ "\n\n"

/-- The full event stream produced for a sequence of received messages. -/
def event_generator (msgs : List SseMsg) : List String := msgs.map sse_event

/-- The `StreamingResponse` configuration of `notification_stream`. -/
structure StreamConfig where
  mediaType : String
  headers : List (String × String)
deriving DecidableEq, Repr

/-- Media type and headers of the SSE response. -/
def notification_stream_config : StreamConfig :=
  { mediaType := "text/event-stream",
    headers := [("Cache-Control", "no-cache"),
                ("Connection", "keep-alive"),
                ("X-Accel-Buffering", "no")] }

end PB



namespace PB

/-! ## Theorems -/

/-- C2 (code bug in `parse_money_2dp`): the spec and the repository's own
unit tests (`tests/unit/test_money.py`) require `""`, `"NaN"`,
`"Infinity"`, `"-Infinity"` and `"abc"` to all fail with the same
`ValueError` ("Invalid decimal string"), but the code returns `NaN`
successfully for `"NaN"` (quantize propagates a quiet NaN) and lets
`decimal.InvalidOperation` escape uncaught for `"±Infinity"` (the
`try` block only wraps the constructor); only `""` and `"abc"` fail
with the advertised kind. -/
theorem claim_C2_money_rejection :
    parse_money_2dp "NaN" = .ok (.nan false) ∧
    parse_money_2dp "Infinity" = .error .invalidOperation ∧
    parse_money_2dp "-Infinity" = .error .invalidOperation ∧
    parse_money_2dp "" = .error .valueError ∧
    parse_money_2dp "abc" = .error .valueError :=
  ⟨by decide, by decide, by decide, by decide, by decide⟩

/-- C4: the audit no-op invariant.  `record_change` persists zero rows
whenever `old_value == new_value` (Python dict equality); the batch
variant filters its list to the entries with `old != new` before
inserting, performs no repository call at all when the filtered list
is empty, and every row it does insert is a true delta. -/
theorem claim_C4_audit_noop_invariant :
    (∀ entityType entityId (o n : ValueMap) uid, pyDictEq o n = true →
      record_change entityType entityId (some o) n uid = none) ∧
    (∀ entityType (changes : List (Nat × Option ValueMap × ValueMap)) uid,
      (∀ c ∈ changes, optValEq c.2.1 c.2.2 = true) →
      record_changes_batch entityType changes uid = none) ∧
    (∀ entityType changes uid l,
      record_changes_batch entityType changes uid = some l →
      l ≠ [] ∧ ∀ e ∈ l, optValEq e.oldValue e.newValue = false) := by
  refine ⟨?_, ?_, ?_⟩
  · intro et eid o n uid h
    simp [record_change, optValEq, h]
  · intro et changes uid h
    have hnil : changes.filterMap (fun c =>
        if optValEq c.2.1 c.2.2 then none
        else some (⟨et, c.1, c.2.1, c.2.2, uid⟩ : HistoryEntry)) = [] := by
      rw [List.filterMap_eq_nil_iff]
      intro c hc
      simp [h c hc]
    simp [record_changes_batch, hnil]
  · intro et changes uid l h
    unfold record_changes_batch at h
    by_cases hne : (changes.filterMap (fun c =>
        if optValEq c.2.1 c.2.2 then none
        else some (⟨et, c.1, c.2.1, c.2.2, uid⟩ : HistoryEntry))).isEmpty
    · simp [hne] at h
    · simp [hne] at h
      subst h
      constructor
      · intro habs
        rw [habs] at hne
        simp at hne
      · intro e he
        rcases List.mem_filterMap.mp he with ⟨c, _, hc⟩
        by_cases hv : optValEq c.2.1 c.2.2
        · simp [hv] at hc
        · simp [hv] at hc
          rw [← hc]
          simpa using hv

/-- C4 witness: both recorder entry points skip a concrete no-op. -/
theorem claim_C4_witness :
    record_change "invoice_line_item" 1
      (some [("adjustments", "0.00")]) [("adjustments", "0.00")] 42 = none ∧
    record_changes_batch "invoice_line_item"
      [(1, some [("adjustments", "0.00")], [("adjustments", "0.00")])] 42 = none :=
  ⟨claim_C4_audit_noop_invariant.1 _ _ _ _ _ (by decide),
   claim_C4_audit_noop_invariant.2.1 _ _ _ (by decide)⟩

/-- C7: self-mention / self-reply suppression.  When every mentioned user
is the author, `create_mention_notifications` creates zero rows; when
the reply author is the parent comment's author,
`create_reply_notification` creates zero rows. -/
theorem claim_C7_self_suppression :
    (∀ (mentionedUsers : List MUser) (author : MUser) (comment : MComment),
      (∀ u ∈ mentionedUsers, u.id = author.id) →
      create_mention_notifications mentionedUsers author comment = []) ∧
    (∀ (parentComment : MComment) (replyAuthor : MUser) (replyComment : MComment),
      parentComment.authorId = replyAuthor.id →
      create_reply_notification parentComment replyAuthor replyComment = none) := by
  constructor
  · intro mentionedUsers author comment h
    have hnil : mentionedUsers.filterMap (fun u =>
        if u.id = author.id then none
        else some
          ({ userId := u.id, ntype := "mention",
             message := "@" ++ author.username ++ " mentioned you in a comment",
             commentId := comment.id, actorId := author.id } : MNotification)) = [] := by
      rw [List.filterMap_eq_nil_iff]
      intro u hu
      simp [h u hu]
    simp [create_mention_notifications, hnil]
  · intro parentComment replyAuthor replyComment h
    simp [create_reply_notification, h]

/-- C7 witness: a comment whose only mention is its author, and a reply
to one's own comment, each yield zero notifications. -/
theorem claim_C7_witness :
    create_mention_notifications [⟨1, "alice", true⟩] ⟨1, "alice", true⟩
      ⟨5, "me: @alice", 10, 1, none⟩ = [] ∧
    create_reply_notification ⟨5, "hi", 10, 1, none⟩ ⟨1, "alice", true⟩
      ⟨6, "re: hi", 10, 1, some 5⟩ = none :=
  ⟨claim_C7_self_suppression.1 _ _ _ (by decide),
   claim_C7_self_suppression.2 _ _ _ (by decide)⟩

end PB

namespace PB

/-- C6 (code bug in `create_comment`): the spec says comment creation
calls the mention parser/resolver and then enqueues the mention (and,
for replies, reply) notification tasks.  The code resolves the
mentions but then only logs
`TODO: Notify users ... about mention in new comment`; no caller of
`enqueue_mention_notifications` / `enqueue_reply_notification` exists
in the comment path, so the queue (and hence the worker) never sees
the event.  Concretely: alice (id 1) commenting `"Hey @bob"` on
campaign 10 resolves bob (id 2) and creates his mention row, yet
enqueues nothing — although the enqueue helper would have produced a
task had it been called; the reply path enqueues nothing either. -/
theorem claim_C6_create_comment_enqueues_nothing :
    ((create_comment ⟨[10], [⟨1, "alice", true⟩, ⟨2, "bob", true⟩], [], [], 100⟩
        "Hey @bob" 10 1 none).result = .ok ⟨100, "Hey @bob", 10, 1, none⟩) ∧
    ((create_comment ⟨[10], [⟨1, "alice", true⟩, ⟨2, "bob", true⟩], [], [], 100⟩
        "Hey @bob" 10 1 none).resolvedMentioned = [⟨2, "bob", true⟩]) ∧
    ((create_comment ⟨[10], [⟨1, "alice", true⟩, ⟨2, "bob", true⟩], [], [], 100⟩
        "Hey @bob" 10 1 none).state.mentions = [(100, 2)]) ∧
    ((create_comment ⟨[10], [⟨1, "alice", true⟩, ⟨2, "bob", true⟩], [], [], 100⟩
        "Hey @bob" 10 1 none).enqueuedTasks = []) ∧
    (enqueue_mention_notifications [2] 1 100 =
      [{ taskType := "mention", mentionedUserIds := some [2],
         authorId := some 1, commentId := some 100 }]) ∧
    ((create_comment ⟨[10], [⟨1, "alice", true⟩, ⟨2, "bob", true⟩],
        [⟨50, "hi", 10, 2, none⟩], [], 100⟩
        "a reply" 10 1 (some 50)).result = .ok ⟨100, "a reply", 10, 1, some 50⟩) ∧
    ((create_comment ⟨[10], [⟨1, "alice", true⟩, ⟨2, "bob", true⟩],
        [⟨50, "hi", 10, 2, none⟩], [], 100⟩
        "a reply" 10 1 (some 50)).enqueuedTasks = []) :=
  ⟨by decide, by decide, by decide, by decide, by decide, by decide, by decide⟩

/-- C9: SSE wire format.  For message streams as the broadcaster produces
them (the synthesized heartbeat marker or a notification payload of
type `mention`/`reply`), every emitted event is either the comment-only
keep-alive `": heartbeat\n\n"` — exactly for the heartbeat marker — or
`"data: <JSON>\n\n"` with the serialized payload; and the response is
served as `text/event-stream` with caching and proxy buffering
disabled. -/
theorem claim_C9_sse_wire_format :
    (∀ (msgs : List SseMsg),
      (∀ m ∈ msgs, m = heartbeatMarker ∨
        msgGet m "type" = some "mention" ∨ msgGet m "type" = some "reply") →
      ∀ ev ∈ event_generator msgs, ∃ m ∈ msgs,
        (m = heartbeatMarker ∧ ev = ": heartbeat\n\n") ∨
        (m ≠ heartbeatMarker ∧ ev = "data: " ++ jsonDumps m ++ "\n\n")) ∧
    notification_stream_config.mediaType = "text/event-stream" ∧
    ("Cache-Control", "no-cache") ∈ notification_stream_config.headers ∧
    ("X-Accel-Buffering", "no") ∈ notification_stream_config.headers := by
  refine ⟨?_, by decide, by decide, by decide⟩
  intro msgs hdom ev hev
  rcases List.mem_map.mp hev with ⟨m, hm, hevm⟩
  refine ⟨m, hm, ?_⟩
  rcases hdom m hm with h | h | h
  · left
    refine ⟨h, ?_⟩
    rw [← hevm, h]
    decide
  · right
    have hne : m ≠ heartbeatMarker := by
      intro habs
      rw [habs] at h
      simp [msgGet, heartbeatMarker] at h
    refine ⟨hne, ?_⟩
    rw [← hevm]
    unfold sse_event
    rw [h]
    simp
  · right
    have hne : m ≠ heartbeatMarker := by
      intro habs
      rw [habs] at h
      simp [msgGet, heartbeatMarker] at h
    refine ⟨hne, ?_⟩
    rw [← hevm]
    unfold sse_event
    rw [h]
    simp

/-- C9 witness: the two-message stream (heartbeat marker, then a mention
payload) produces the claimed event shapes. -/
theorem claim_C9_witness :
    ∃ m ∈ ([heartbeatMarker, [("type", "mention")]] : List SseMsg),
      (m = heartbeatMarker ∧ (": heartbeat\n\n" : String) = ": heartbeat\n\n") ∨
      (m ≠ heartbeatMarker ∧
        (": heartbeat\n\n" : String) = "data: " ++ jsonDumps m ++ "\n\n") :=
  claim_C9_sse_wire_format.1 [heartbeatMarker, [("type", "mention")]]
    (by decide) ": heartbeat\n\n" (by decide)

end PB

namespace PB

/-! ### Python-dict lemmas used by the batch-engine proofs -/

theorem pyDictInsert_map_fst {β : Type} (k : Nat) (v : β) (m : List (Nat × β)) :
    (pyDictInsert k v m).map Prod.fst =
      if k ∈ m.map Prod.fst then m.map Prod.fst else m.map Prod.fst ++ [k] := by
  unfold pyDictInsert
  by_cases hmem : k ∈ m.map Prod.fst
  · have hany : m.any (fun p => p.1 = k) = true := by
      rw [List.any_eq_true]
      rcases List.mem_map.mp hmem with ⟨p, hp, hk⟩
      exact ⟨p, hp, by simp [hk]⟩
    rw [if_pos hmem]
    simp only [hany, if_true]
    rw [List.map_map]
    apply List.map_congr_left
    intro p _
    by_cases hpk : p.1 = k
    · simp [hpk]
    · simp [hpk]
  · have hany : m.any (fun p => p.1 = k) = false := by
      rw [List.any_eq_false]
      intro p hp
      simp only [decide_eq_true_eq]
      intro habs
      exact hmem (List.mem_map.mpr ⟨p, hp, habs⟩)
    rw [if_neg hmem]
    simp [hany]

theorem pyDict_keys_aux {β : Type} (l : List (Nat × β)) :
    ∀ acc : List (Nat × β), (acc.map Prod.fst).Nodup →
      (((l.foldl (fun m p => pyDictInsert p.1 p.2 m) acc).map Prod.fst).Nodup ∧
        ∀ k, k ∈ (l.foldl (fun m p => pyDictInsert p.1 p.2 m) acc).map Prod.fst →
          k ∈ acc.map Prod.fst ∨ k ∈ l.map Prod.fst) := by
  induction l with
  | nil => intro acc hacc; exact ⟨hacc, fun k hk => Or.inl hk⟩
  | cons hd tl ih =>
    intro acc hacc
    have hstep := pyDictInsert_map_fst hd.1 hd.2 acc
    have hnd : ((pyDictInsert hd.1 hd.2 acc).map Prod.fst).Nodup := by
      rw [hstep]
      by_cases hmem : hd.1 ∈ acc.map Prod.fst
      · rw [if_pos hmem]; exact hacc
      · rw [if_neg hmem]
        rw [List.nodup_append]
        exact ⟨hacc, List.nodup_singleton _, by
          intro x hx
          simp only [List.mem_singleton]
          intro habs
          exact hmem (habs ▸ hx)⟩
    rcases ih (pyDictInsert hd.1 hd.2 acc) hnd with ⟨h1, h2⟩
    refine ⟨h1, ?_⟩
    intro k hk
    rcases h2 k hk with hk' | hk'
    · rw [hstep] at hk'
      by_cases hmem : hd.1 ∈ acc.map Prod.fst
      · rw [if_pos hmem] at hk'; exact Or.inl hk'
      · rw [if_neg hmem] at hk'
        rcases List.mem_append.mp hk' with h | h
        · exact Or.inl h
        · right
          simp only [List.mem_singleton] at h
          simp [h]
    · right
      simp [hk']

theorem pyDict_keys_nodup {β : Type} (l : List (Nat × β)) :
    ((pyDict l).map Prod.fst).Nodup :=
  (pyDict_keys_aux l [] (by simp)).1

theorem pyDict_keys_subset {β : Type} (l : List (Nat × β)) :
    ∀ k ∈ (pyDict l).map Prod.fst, k ∈ l.map Prod.fst := by
  intro k hk
  rcases (pyDict_keys_aux l [] (by simp)).2 k hk with h | h
  · simp at h
  · exact h

theorem pyDict_eq_self_aux {β : Type} (l : List (Nat × β)) :
    ∀ acc : List (Nat × β),
      (l.map Prod.fst).Nodup →
      (∀ k ∈ l.map Prod.fst, k ∉ acc.map Prod.fst) →
      l.foldl (fun m p => pyDictInsert p.1 p.2 m) acc = acc ++ l := by
  induction l with
  | nil => intro acc _ _; simp
  | cons hd tl ih =>
    intro acc hnd hdisj
    have hhd : hd.1 ∉ acc.map Prod.fst := hdisj hd.1 (by simp)
    have hins : pyDictInsert hd.1 hd.2 acc = acc ++ [(hd.1, hd.2)] := by
      unfold pyDictInsert
      have hany : acc.any (fun p => p.1 = hd.1) = false := by
        rw [List.any_eq_false]
        intro p hp
        simp only [decide_eq_true_eq]
        intro habs
        exact hhd (List.mem_map.mpr ⟨p, hp, habs⟩)
      simp [hany]
    have hnd' : (tl.map Prod.fst).Nodup := by
      simp only [List.map_cons, List.nodup_cons] at hnd
      exact hnd.2
    have hhdtl : hd.1 ∉ tl.map Prod.fst := by
      simp only [List.map_cons, List.nodup_cons] at hnd
      exact hnd.1
    have hdisj' : ∀ k ∈ tl.map Prod.fst, k ∉ (acc ++ [(hd.1, hd.2)]).map Prod.fst := by
      intro k hk
      simp only [List.map_append, List.mem_append, List.map_cons, List.map_nil,
        List.mem_singleton]
      rintro (h | h)
      · exact hdisj k (by simp [hk]) h
      · exact hhdtl (h ▸ hk)
    calc (hd :: tl).foldl (fun m p => pyDictInsert p.1 p.2 m) acc
        = tl.foldl (fun m p => pyDictInsert p.1 p.2 m) (acc ++ [(hd.1, hd.2)]) := by
          simp [hins]
      _ = (acc ++ [(hd.1, hd.2)]) ++ tl := ih (acc ++ [(hd.1, hd.2)]) hnd' hdisj'
      _ = acc ++ hd :: tl := by simp

theorem pyDict_eq_self {β : Type} (l : List (Nat × β))
    (h : (l.map Prod.fst).Nodup) : pyDict l = l := by
  have := pyDict_eq_self_aux l [] h (by simp)
  simpa [pyDict] using this

end PB

namespace PB

/-! ### Batch-engine lemmas -/

/-- If every raw adjustment parses, `parse_all` succeeds and preserves
the ids and the length of the update list. -/
theorem parse_all_ok_of_forall (updates : List (Nat × String))
    (h : ∀ p ∈ updates, ∃ d, parse_money_2dp p.2 = .ok d) :
    ∃ parsed, parse_all updates = .ok parsed ∧
      parsed.map Prod.fst = updates.map Prod.fst ∧
      parsed.length = updates.length := by
  induction updates with
  | nil => exact ⟨[], rfl, rfl, rfl⟩
  | cons hd tl ih =>
    obtain ⟨d, hdok⟩ := h hd (by simp)
    obtain ⟨tailParsed, htok, htids, htlen⟩ := ih (fun p hp => h p (by simp [hp]))
    refine ⟨(hd.1, d) :: tailParsed, ?_, ?_, ?_⟩
    · show parse_all (hd :: tl) = _
      rw [show hd = (hd.1, hd.2) from rfl]
      unfold parse_all
      rw [hdok, htok]
    · simp [htids]
    · simp [htlen]

/-- `pyDict` size bound: if every key of the dict lies in a `Nodup`
target list, the dict is no longer than the target. -/
theorem pyDict_length_le {β : Type} (pairs : List (Nat × β))
    (target : List Nat)
    (hsub : ∀ k ∈ (pyDict pairs).map Prod.fst, k ∈ target) :
    (pyDict pairs).length ≤ target.length := by
  have h1 : (pyDict pairs).length = ((pyDict pairs).map Prod.fst).length := by
    rw [List.length_map]
  rw [h1]
  exact (List.subperm_of_subset (pyDict_keys_nodup pairs) hsub).length_le

/-- When the repository's found+owned dict has a different size from the
request, the whole service call fails with the ownership
`BatchUpdateError` (empty `invalid_ids`) and returns the database
untouched, with no history submitted or persisted. -/
theorem batch_update_mismatch_outcome (db : List Row) (invoiceId uid : Nat)
    (updates : List (Nat × String)) (parsed : List (Nat × PyDec))
    (hok : parse_all updates = .ok parsed)
    (hne : parsed ≠ [])
    (hlen : (pyDict ((db.filter (fun r =>
        (parsed.map Prod.fst).contains r.id && r.invoiceId = invoiceId)).map
        (fun r => (r.id, r)))).length ≠ parsed.length) :
    invoice_line_item_batch_update db invoiceId updates uid =
      ⟨.error (.batchUpdateError
        ("One or more invoice_line_item_ids not found or do not belong to invoice "
          ++ natToDecString invoiceId) []), db, none, none⟩ := by
  have hrepo : repo_batch_update_adjustments db invoiceId parsed = ([], db) := by
    unfold repo_batch_update_adjustments
    have hEmpty : parsed.isEmpty = false := by
      cases parsed with
      | nil => exact absurd rfl hne
      | cons a b => rfl
    rw [hEmpty]
    simp only [Bool.false_eq_true, if_false]
    rw [if_pos hlen]
  unfold invoice_line_item_batch_update
  rw [hok]
  simp only [hrepo, List.isEmpty_nil, if_true]

end PB

namespace PB

/-- Ownership failure, general form: if every raw adjustment parses but
some referenced id has no row that exists and belongs to `invoice_id`,
the call fails with the ownership `BatchUpdateError` and the database
comes back untouched. -/
theorem batch_ownership_outcome (db : List Row) (invoiceId : Nat)
    (updates : List (Nat × String)) (uid : Nat)
    (hparse : ∀ p ∈ updates, ∃ d, parse_money_2dp p.2 = .ok d)
    (hbad : ∃ p ∈ updates, ∀ r ∈ db, ¬(r.id = p.1 ∧ r.invoiceId = invoiceId)) :
    invoice_line_item_batch_update db invoiceId updates uid =
      ⟨.error (.batchUpdateError
        ("One or more invoice_line_item_ids not found or do not belong to invoice "
          ++ natToDecString invoiceId) []), db, none, none⟩ := by
  obtain ⟨parsed, hok, hids, hlenp⟩ := parse_all_ok_of_forall updates hparse
  obtain ⟨p, hp, hbadp⟩ := hbad
  have hbmem : p.1 ∈ parsed.map Prod.fst := by
    rw [hids]
    exact List.mem_map.mpr ⟨p, hp, rfl⟩
  have hne : parsed ≠ [] := by
    intro habs
    rw [habs] at hbmem
    simp at hbmem
  apply batch_update_mismatch_outcome db invoiceId uid updates parsed hok hne
  -- counting: the found+owned dict misses p.1, so it is strictly smaller
  set ids := parsed.map Prod.fst with hids_def
  set pairs := (db.filter (fun r => ids.contains r.id && r.invoiceId = invoiceId)).map
    (fun r => (r.id, r)) with hpairs_def
  have hsub : ∀ k ∈ (pyDict pairs).map Prod.fst, k ∈ (ids.dedup).erase p.1 := by
    intro k hk
    have hk' := pyDict_keys_subset pairs k hk
    rw [hpairs_def, List.map_map] at hk'
    rcases List.mem_map.mp hk' with ⟨r, hr, hkr⟩
    have hkr' : r.id = k := hkr
    rcases List.mem_filter.mp hr with ⟨hrdb, hpred⟩
    rw [Bool.and_eq_true] at hpred
    have hrid : r.id ∈ ids := by
      have := hpred.1
      simpa [List.contains] using this
    have hrinv : r.invoiceId = invoiceId := by
      simpa using hpred.2
    have hkne : k ≠ p.1 := by
      intro habs
      exact hbadp r hrdb ⟨by rw [hkr', habs], hrinv⟩
    rw [List.mem_erase_of_ne hkne, List.mem_dedup]
    rw [← hkr']
    exact hrid
  have hle := pyDict_length_le pairs ((ids.dedup).erase p.1) hsub
  have herase : ((ids.dedup).erase p.1).length = ids.dedup.length - 1 :=
    List.length_erase_of_mem (List.mem_dedup.mpr hbmem)
  have hdlen : ids.dedup.length ≤ ids.length := (List.dedup_sublist ids).length_le
  have hdpos : 0 < ids.dedup.length :=
    List.length_pos.mpr (List.ne_nil_of_mem (List.mem_dedup.mpr hbmem))
  have hidlen : ids.length = parsed.length := by
    rw [hids_def, List.length_map]
  omega

/-- C1: batch all-or-nothing on ownership failure.  If every raw
adjustment passes money validation but some referenced id has no row
that both exists and belongs to `invoice_id`, the whole call raises
the ownership `BatchUpdateError`, the database is returned exactly as
it was (no row mutated, including the valid ones), and no history is
submitted or persisted. -/
theorem claim_C1_batch_all_or_nothing (db : List Row) (invoiceId : Nat)
    (updates : List (Nat × String)) (uid : Nat)
    (hparse : ∀ p ∈ updates, ∃ d, parse_money_2dp p.2 = .ok d)
    (hbad : ∃ p ∈ updates, ∀ r ∈ db, ¬(r.id = p.1 ∧ r.invoiceId = invoiceId)) :
    invoice_line_item_batch_update db invoiceId updates uid =
      ⟨.error (.batchUpdateError
        ("One or more invoice_line_item_ids not found or do not belong to invoice "
          ++ natToDecString invoiceId) []), db, none, none⟩ :=
  batch_ownership_outcome db invoiceId updates uid hparse hbad

/-- C1 witness: invoice 7 owns rows 1 and 2; row 3 belongs to invoice 8.
A batch naming rows 1 and 3 is rejected with the ownership error and
mutates nothing. -/
theorem claim_C1_witness :
    invoice_line_item_batch_update
      [⟨1, 7, .finite 8000 (-2), .finite 0 (-2)⟩,
       ⟨2, 7, .finite 100 (-2), .finite 500 (-2)⟩,
       ⟨3, 8, .finite 0 0, .finite 0 0⟩] 7
      [(1, "5.00"), (3, "5.00")] 42 =
      ⟨.error (.batchUpdateError
        ("One or more invoice_line_item_ids not found or do not belong to invoice "
          ++ natToDecString 7) []),
        [⟨1, 7, .finite 8000 (-2), .finite 0 (-2)⟩,
         ⟨2, 7, .finite 100 (-2), .finite 500 (-2)⟩,
         ⟨3, 8, .finite 0 0, .finite 0 0⟩], none, none⟩ :=
  claim_C1_batch_all_or_nothing _ _ _ _
    (by
      intro p hp
      simp only [List.mem_cons, List.not_mem_nil, or_false] at hp
      rcases hp with rfl | rfl
      · exact ⟨.finite 500 (-2), by decide⟩
      · exact ⟨.finite 500 (-2), by decide⟩)
    ⟨(3, "5.00"), by decide, by decide⟩

/-- C10: duplicate references reject the whole batch.  Whenever the same
invoice-line-item id occurs more than once in the update list (and
every raw adjustment parses), the found rows are deduplicated into a
dict whose size cannot reach the raw update count, so the call fails
with the ownership `BatchUpdateError` and no row is mutated — even
when every referenced id exists and belongs to the invoice. -/
theorem claim_C10_duplicate_ids_reject (db : List Row) (invoiceId : Nat)
    (updates : List (Nat × String)) (uid : Nat)
    (hparse : ∀ p ∈ updates, ∃ d, parse_money_2dp p.2 = .ok d)
    (hdup : ¬ (updates.map Prod.fst).Nodup) :
    invoice_line_item_batch_update db invoiceId updates uid =
      ⟨.error (.batchUpdateError
        ("One or more invoice_line_item_ids not found or do not belong to invoice "
          ++ natToDecString invoiceId) []), db, none, none⟩ := by
  obtain ⟨parsed, hok, hids, hlenp⟩ := parse_all_ok_of_forall updates hparse
  have hdup' : ¬ (parsed.map Prod.fst).Nodup := by
    rw [hids]; exact hdup
  have hne : parsed ≠ [] := by
    intro habs
    rw [habs] at hdup'
    exact hdup' (by simp)
  apply batch_update_mismatch_outcome db invoiceId uid updates parsed hok hne
  set ids := parsed.map Prod.fst with hids_def
  set pairs := (db.filter (fun r => ids.contains r.id && r.invoiceId = invoiceId)).map
    (fun r => (r.id, r)) with hpairs_def
  have hsub : ∀ k ∈ (pyDict pairs).map Prod.fst, k ∈ ids.dedup := by
    intro k hk
    have hk' := pyDict_keys_subset pairs k hk
    rw [hpairs_def, List.map_map] at hk'
    rcases List.mem_map.mp hk' with ⟨r, hr, hkr⟩
    have hkr' : r.id = k := hkr
    rcases List.mem_filter.mp hr with ⟨_, hpred⟩
    rw [Bool.and_eq_true] at hpred
    have hrid : r.id ∈ ids := by
      have := hpred.1
      simpa [List.contains] using this
    rw [List.mem_dedup, ← hkr']
    exact hrid
  have hle := pyDict_length_le pairs ids.dedup hsub
  have hdlt : ids.dedup.length < ids.length := by
    rcases Nat.lt_or_ge ids.dedup.length ids.length with h | h
    · exact h
    · exfalso
      have hsl := List.dedup_sublist ids
      have hlen : ids.dedup.length = ids.length :=
        Nat.le_antisymm hsl.length_le h
      have : ids.dedup = ids := hsl.eq_of_length hlen
      exact hdup' (List.dedup_eq_self.mp this)
  have hidlen : ids.length = parsed.length := by
    rw [hids_def, List.length_map]
  omega

/-- C10 witness: both referenced rows exist and belong to invoice 7, but
id 1 is referenced twice, so the batch is rejected and nothing is
mutated. -/
theorem claim_C10_witness :
    invoice_line_item_batch_update
      [⟨1, 7, .finite 8000 (-2), .finite 0 (-2)⟩,
       ⟨2, 7, .finite 100 (-2), .finite 500 (-2)⟩] 7
      [(1, "5.00"), (1, "6.00"), (2, "7.00")] 42 =
      ⟨.error (.batchUpdateError
        ("One or more invoice_line_item_ids not found or do not belong to invoice "
          ++ natToDecString 7) []),
        [⟨1, 7, .finite 8000 (-2), .finite 0 (-2)⟩,
         ⟨2, 7, .finite 100 (-2), .finite 500 (-2)⟩], none, none⟩ :=
  claim_C10_duplicate_ids_reject _ _ _ _
    (by
      intro p hp
      simp only [List.mem_cons, List.not_mem_nil, or_false] at hp
      rcases hp with rfl | rfl | rfl
      · exact ⟨.finite 500 (-2), by decide⟩
      · exact ⟨.finite 600 (-2), by decide⟩
      · exact ⟨.finite 700 (-2), by decide⟩)
    (by decide)

end PB

namespace PB

/-- C8 counterexample: the claim says malformed-value failures and
ownership failures surface as *distinct error kinds*.  At concrete
inputs, both failure categories raise the very same exception class
`BatchUpdateError` (`services/invoice_line_item_service.py` defines
only this one batch error class, and the endpoint maps it to one
HTTP 400), so the kind alone does not distinguish them. -/
theorem claim_C8_counterexample :
    ((invoice_line_item_batch_update
        [⟨1, 7, .finite 8000 (-2), .finite 0 (-2)⟩] 7 [(1, "abc")] 42).result =
      .error (.batchUpdateError
        "Invalid adjustment for invoice_line_item_id 1" [1])) ∧
    ((invoice_line_item_batch_update
        [⟨1, 7, .finite 8000 (-2), .finite 0 (-2)⟩] 7 [(99, "5.00")] 42).result =
      .error (.batchUpdateError
        ("One or more invoice_line_item_ids not found or do not belong to invoice "
          ++ natToDecString 7) [])) ∧
    (SvcError.batchUpdateError
        "Invalid adjustment for invoice_line_item_id 1" [1]).kind =
      (SvcError.batchUpdateError
        ("One or more invoice_line_item_ids not found or do not belong to invoice "
          ++ natToDecString 7) []).kind :=
  ⟨by decide, by decide, by decide⟩

/-- C8 amended: both failure categories raise the single exception class
`BatchUpdateError`; what distinguishes them is the payload, not the
kind — a money-validation failure carries the offending reference in
`invalid_ids` (non-empty) while an ownership failure carries
`invalid_ids = []` — and along the way a `"±Infinity"` adjustment
escapes as an uncaught `decimal.InvalidOperation` instead of either
category (see C2). -/
theorem claim_C8_error_payloads :
    (∀ (db : List Row) (invoiceId uid i : Nat) (s : String)
        (rest : List (Nat × String)),
      parse_money_2dp s = .error .valueError →
      (invoice_line_item_batch_update db invoiceId ((i, s) :: rest) uid).result =
        .error (.batchUpdateError
          ("Invalid adjustment for invoice_line_item_id " ++ natToDecString i) [i])) ∧
    (∀ (db : List Row) (invoiceId uid : Nat) (updates : List (Nat × String)),
      (∀ p ∈ updates, ∃ d, parse_money_2dp p.2 = .ok d) →
      (∃ p ∈ updates, ∀ r ∈ db, ¬(r.id = p.1 ∧ r.invoiceId = invoiceId)) →
      (invoice_line_item_batch_update db invoiceId updates uid).result =
        .error (.batchUpdateError
          ("One or more invoice_line_item_ids not found or do not belong to invoice "
            ++ natToDecString invoiceId) [])) ∧
    (∀ m₁ ids₁ m₂ ids₂, (SvcError.batchUpdateError m₁ ids₁).kind =
      (SvcError.batchUpdateError m₂ ids₂).kind) := by
  refine ⟨?_, ?_, fun _ _ _ _ => rfl⟩
  · intro db invoiceId uid i s rest h
    unfold invoice_line_item_batch_update parse_all
    rw [h]
  · intro db invoiceId uid updates hparse hbad
    rw [batch_ownership_outcome db invoiceId updates uid hparse hbad]

/-- C8 amended witness: a malformed value produces `invalid_ids = [1]`, a
foreign reference produces `invalid_ids = []`, same class either way. -/
theorem claim_C8_witness :
    ((invoice_line_item_batch_update
        [⟨1, 7, .finite 8000 (-2), .finite 0 (-2)⟩] 7 [(1, "oops")] 42).result =
      .error (.batchUpdateError
        ("Invalid adjustment for invoice_line_item_id " ++ natToDecString 1) [1])) ∧
    ((invoice_line_item_batch_update
        [⟨1, 7, .finite 8000 (-2), .finite 0 (-2)⟩] 7 [(2, "5.00")] 42).result =
      .error (.batchUpdateError
        ("One or more invoice_line_item_ids not found or do not belong to invoice "
          ++ natToDecString 7) [])) ∧
    (SvcError.batchUpdateError "a" [1]).kind = (SvcError.batchUpdateError "b" []).kind :=
  ⟨claim_C8_error_payloads.1 _ _ _ _ _ _ (by decide),
   claim_C8_error_payloads.2.1 _ _ _ _
     (by
       intro p hp
       simp only [List.mem_cons, List.not_mem_nil, or_false] at hp
       rcases hp with rfl
       exact ⟨.finite 500 (-2), by decide⟩)
     ⟨(2, "5.00"), by decide, by decide⟩,
   claim_C8_error_payloads.2.2 "a" [1] "b" []⟩

end PB

namespace PB

/-! ### Success-path lemmas for the batch engine -/

/-- `find?` over rows keyed by `Nodup` ids locates exactly the member
row. -/
theorem find?_row_of_nodup (l : List Row) (hnd : (l.map Row.id).Nodup)
    (r : Row) (hr : r ∈ l) :
    l.find? (fun x => x.id = r.id) = some r := by
  induction l with
  | nil => cases hr
  | cons hd tl ih =>
    simp only [List.map_cons, List.nodup_cons] at hnd
    rcases List.mem_cons.mp hr with rfl | hrtl
    · rw [List.find?_cons_of_pos]
      simp
    · have hne : hd.id ≠ r.id := by
        intro habs
        exact hnd.1 (habs ▸ List.mem_map.mpr ⟨r, hrtl, rfl⟩)
      rw [List.find?_cons_of_neg]
      · exact ih hnd.2 hrtl
      · simp [hne]

/-- `find?` over `(id, g row)` pairs built from `Nodup`-keyed rows locates
the member row's pair. -/
theorem find?_pair_of_nodup {β : Type} (l : List Row)
    (hnd : (l.map Row.id).Nodup) (g : Row → β) (r : Row) (hr : r ∈ l) :
    (l.map (fun x => (x.id, g x))).find? (fun p => p.1 = r.id) =
      some (r.id, g r) := by
  induction l with
  | nil => cases hr
  | cons hd tl ih =>
    simp only [List.map_cons, List.nodup_cons] at hnd
    rcases List.mem_cons.mp hr with rfl | hrtl
    · rw [List.map_cons, List.find?_cons_of_pos]
      simp
    · have hne : hd.id ≠ r.id := by
        intro habs
        exact hnd.1 (habs ▸ List.mem_map.mpr ⟨r, hrtl, rfl⟩)
      rw [List.map_cons, List.find?_cons_of_neg]
      · exact ih hnd.2 hrtl
      · simp [hne]

/-- Explicit form of the repository batch update on the success path:
when every requested id is matched (dict size equals request size),
each matched row's `adjustments` is assigned from `dict(updates)` and
the updated rows are returned in match order. -/
theorem repo_success_form (db : List Row) (invoiceId : Nat)
    (updates : List (Nat × PyDec))
    (hnd : (db.map Row.id).Nodup) (hne : updates ≠ [])
    (hlen : (db.filter (fun r => (updates.map Prod.fst).contains r.id &&
        r.invoiceId = invoiceId)).length = updates.length) :
    repo_batch_update_adjustments db invoiceId updates =
      ((db.filter (fun r => (updates.map Prod.fst).contains r.id &&
          r.invoiceId = invoiceId)).map (fun r =>
        match pyDictGet (pyDict updates) r.id with
        | some v => { r with adjustments := v }
        | none => r),
      db.map (fun r =>
        if (updates.map Prod.fst).contains r.id && r.invoiceId = invoiceId then
          match pyDictGet (pyDict updates) r.id with
          | some v => { r with adjustments := v }
          | none => r
        else r)) := by
  have hFkeys : ((db.filter (fun r => (updates.map Prod.fst).contains r.id &&
      r.invoiceId = invoiceId)).map Row.id).Nodup :=
    hnd.sublist ((List.filter_sublist db).map Row.id)
  have hpairs : pyDict ((db.filter (fun r => (updates.map Prod.fst).contains r.id &&
      r.invoiceId = invoiceId)).map (fun r => (r.id, r))) =
      (db.filter (fun r => (updates.map Prod.fst).contains r.id &&
        r.invoiceId = invoiceId)).map (fun r => (r.id, r)) := by
    apply pyDict_eq_self
    rw [List.map_map]
    exact hFkeys
  have hne' : updates.isEmpty = false := by
    cases updates with
    | nil => exact absurd rfl hne
    | cons a b => rfl
  unfold repo_batch_update_adjustments
  rw [hne']
  simp only [Bool.false_eq_true, if_false]
  rw [hpairs]
  rw [if_neg (by
    rw [List.length_map]
    omega)]
  rw [List.map_map]
  rfl

end PB

namespace PB

/-- C5: a successful batch update submits history triples for exactly the
rows whose adjustments value actually changed — each of the shape
`(entity_id, dict(adjustments=old), dict(adjustments=new))` — to the
change-history recorder; rows whose value did not change are silently
excluded, and when nothing changed (e.g. resubmitting the current
values) the call still succeeds with zero history entries and the
recorder is not invoked at all. -/
theorem claim_C5_history_true_deltas (db : List Row) (invoiceId uid : Nat)
    (updates : List (Nat × String)) (items : List Row)
    (hnd : (db.map Row.id).Nodup)
    (hok : (invoice_line_item_batch_update db invoiceId updates uid).result =
      .ok items) :
    ((invoice_line_item_batch_update db invoiceId updates uid).submitted =
      if (items.filterMap (specDelta db)).isEmpty then none
      else some (items.filterMap (specDelta db))) ∧
    ((items.filterMap (specDelta db)).isEmpty →
      (invoice_line_item_batch_update db invoiceId updates uid).persisted = none) := by
  cases hpa : parse_all updates with
  | error e =>
    exfalso
    simp [invoice_line_item_batch_update, hpa] at hok
  | ok parsed =>
    by_cases hpe : parsed = []
    · exfalso
      subst hpe
      have hrepo : repo_batch_update_adjustments db invoiceId [] = ([], db) := rfl
      simp [invoice_line_item_batch_update, hpa, hrepo] at hok
    · have hFkeys : ((db.filter (fun r => (parsed.map Prod.fst).contains r.id &&
          r.invoiceId = invoiceId)).map Row.id).Nodup :=
        hnd.sublist ((List.filter_sublist db).map Row.id)
      by_cases hlc : (db.filter (fun r => (parsed.map Prod.fst).contains r.id &&
          r.invoiceId = invoiceId)).length = parsed.length
      · -- success path
        have hrepo := repo_success_form db invoiceId parsed hnd hpe hlc
        have hUlen : ((db.filter (fun r => (parsed.map Prod.fst).contains r.id &&
            r.invoiceId = invoiceId)).map (fun r =>
              match pyDictGet (pyDict parsed) r.id with
              | some v => { r with adjustments := v }
              | none => r)).length = parsed.length := by
          rw [List.length_map]
          exact hlc
        have hUne : ((db.filter (fun r => (parsed.map Prod.fst).contains r.id &&
            r.invoiceId = invoiceId)).map (fun r =>
              match pyDictGet (pyDict parsed) r.id with
              | some v => { r with adjustments := v }
              | none => r)).isEmpty = false := by
          rcases h : (db.filter (fun r => (parsed.map Prod.fst).contains r.id &&
            r.invoiceId = invoiceId)).map (fun r =>
              match pyDictGet (pyDict parsed) r.id with
              | some v => { r with adjustments := v }
              | none => r) with _ | ⟨a, b⟩
          · exfalso
            rw [h] at hUlen
            simp only [List.length_nil] at hUlen
            exact hpe (List.length_eq_zero.mp hUlen.symm)
          · rw [h]
            rfl
        have holdp : pyDict ((db.filter (fun r => (parsed.map Prod.fst).contains r.id &&
            r.invoiceId = invoiceId)).map (fun r => (r.id, r.adjustments))) =
            (db.filter (fun r => (parsed.map Prod.fst).contains r.id &&
              r.invoiceId = invoiceId)).map (fun r => (r.id, r.adjustments)) := by
          apply pyDict_eq_self
          rw [List.map_map]
          exact hFkeys
        -- congruence between the service's delta computation and `specDelta`
        have hcong : ∀ ili ∈ (db.filter (fun r => (parsed.map Prod.fst).contains r.id &&
            r.invoiceId = invoiceId)).map (fun r =>
              match pyDictGet (pyDict parsed) r.id with
              | some v => { r with adjustments := v }
              | none => r),
            (match pyDictGet ((db.filter (fun r => (parsed.map Prod.fst).contains r.id &&
                r.invoiceId = invoiceId)).map (fun r => (r.id, r.adjustments))) ili.id with
             | some oldAdj =>
               if PyDec.sameValue oldAdj ili.adjustments then none
               else some ((ili.id,
                 some [("adjustments", str15 oldAdj)],
                 [("adjustments", str15 ili.adjustments)]) : ChangeTriple)
             | none => none) = specDelta db ili := by
          intro ili hili
          rcases List.mem_map.mp hili with ⟨r, hr, hrili⟩
          have hid : ili.id = r.id := by
            rcases hg : pyDictGet (pyDict parsed) r.id with _ | v
            · rw [← hrili, hg]
            · rw [← hrili, hg]
          have hold : pyDictGet ((db.filter (fun r => (parsed.map Prod.fst).contains r.id &&
              r.invoiceId = invoiceId)).map (fun r => (r.id, r.adjustments))) ili.id =
              some r.adjustments := by
            rw [hid]
            unfold pyDictGet
            rw [find?_pair_of_nodup _ hFkeys (fun x => x.adjustments) r hr]
            rfl
          have hdbfind : db.find? (fun x => x.id = ili.id) = some r := by
            rw [hid]
            exact find?_row_of_nodup db hnd r (List.mem_filter.mp hr).1
          rw [hold]
          unfold specDelta
          rw [hdbfind]
        have hchanges := List.filterMap_congr hcong
        simp only [invoice_line_item_batch_update, hpa, hrepo, hUne,
          Bool.false_eq_true, if_false] at hok
        simp only [Except.ok.injEq] at hok
        subst hok
        constructor
        · simp only [invoice_line_item_batch_update, hpa, hrepo, holdp, hUne,
            Bool.false_eq_true, if_false]
          simp only [hchanges]
        · intro hemp
          simp only [invoice_line_item_batch_update, hpa, hrepo, holdp, hUne,
            Bool.false_eq_true, if_false]
          simp only [hchanges]
          rw [if_pos hemp]
      · -- ownership mismatch cannot have produced `.ok`
        exfalso
        have hlen' : (pyDict ((db.filter (fun r => (parsed.map Prod.fst).contains r.id &&
            r.invoiceId = invoiceId)).map (fun r => (r.id, r)))).length ≠ parsed.length := by
          rw [pyDict_eq_self _ (by rw [List.map_map]; exact hFkeys), List.length_map]
          exact hlc
        have hout := batch_update_mismatch_outcome db invoiceId uid updates parsed hpa hpe hlen'
        rw [hout] at hok
        simp at hok

/-- C5 witness: invoice 7's row 1 goes from 0.00 to 10.13 (one submitted
triple) while a second call resubmitting the current value succeeds
with nothing submitted and nothing persisted. -/
theorem claim_C5_witness :
    ((invoice_line_item_batch_update
        [⟨1, 7, .finite 8000 (-2), .finite 0 (-2)⟩] 7 [(1, "10.125")] 42).submitted =
      if (([⟨1, 7, .finite 8000 (-2), .finite 1013 (-2)⟩] : List Row).filterMap
          (specDelta [⟨1, 7, .finite 8000 (-2), .finite 0 (-2)⟩])).isEmpty then none
      else some (([⟨1, 7, .finite 8000 (-2), .finite 1013 (-2)⟩] : List Row).filterMap
        (specDelta [⟨1, 7, .finite 8000 (-2), .finite 0 (-2)⟩]))) ∧
    ((([⟨1, 7, .finite 8000 (-2), .finite 0 (-2)⟩] : List Row).filterMap
        (specDelta [⟨1, 7, .finite 8000 (-2), .finite 0 (-2)⟩])).isEmpty →
      (invoice_line_item_batch_update
        [⟨1, 7, .finite 8000 (-2), .finite 0 (-2)⟩] 7 [(1, "0.00")] 42).persisted = none) :=
  ⟨(claim_C5_history_true_deltas
      [⟨1, 7, .finite 8000 (-2), .finite 0 (-2)⟩] 7 42 [(1, "10.125")]
      [⟨1, 7, .finite 8000 (-2), .finite 1013 (-2)⟩]
      (by decide) (by decide)).1,
   (claim_C5_history_true_deltas
      [⟨1, 7, .finite 8000 (-2), .finite 0 (-2)⟩] 7 42 [(1, "0.00")]
      [⟨1, 7, .finite 8000 (-2), .finite 0 (-2)⟩]
      (by decide) (by decide)).2⟩

end PB

namespace PB

/-! ### Rounding-law lemmas for the money normalizer -/

/-- Bounds for half-up rounding of a magnitude to a multiple of an even
divisor `2 * h`: the rounded multiple is within `h` of the input, and
at an exact tie it is the larger multiple. -/
theorem roundHalfUpMag_bounds (m h : Nat) (hpos : 0 < h) :
    roundHalfUpMag m (2 * h) * (2 * h) ≤ m + h ∧
    m < roundHalfUpMag m (2 * h) * (2 * h) + h := by
  have hdm := Nat.div_add_mod (m + h) (2 * h)
  have hrem : (m + h) % (2 * h) < 2 * h := Nat.mod_lt _ (by omega)
  unfold roundHalfUpMag
  have h2 : 2 * h / 2 = h := by omega
  rw [h2]
  have hprod : (m + h) / (2 * h) * (2 * h) = 2 * h * ((m + h) / (2 * h)) := by
    ring
  rw [hprod]
  generalize hq : 2 * h * ((m + h) / (2 * h)) = q at hdm ⊢
  omega

/-- Python `ROUND_HALF_UP` at an even scale `2 * h`: the result times the
scale is within `h` of the input, and at an exact tie its magnitude is
at least the input's (ties round away from zero). -/
theorem roundHalfUpInt_spec (n : Int) (h : Nat) (hpos : 0 < h) :
    (roundHalfUpInt n (2 * h) * (2 * (h : Int)) - n).natAbs ≤ h ∧
    ((roundHalfUpInt n (2 * h) * (2 * (h : Int)) - n).natAbs = h →
      n.natAbs ≤ (roundHalfUpInt n (2 * h) * (2 * (h : Int))).natAbs) := by
  obtain ⟨hb1, hb2⟩ := roundHalfUpMag_bounds n.natAbs h hpos
  unfold roundHalfUpInt
  by_cases hn : 0 ≤ n
  · rw [if_pos hn]
    have hc : (roundHalfUpMag n.natAbs (2 * h) : Int) * (2 * (h : Int)) =
        ((roundHalfUpMag n.natAbs (2 * h) * (2 * h) : Nat) : Int) := by
      push_cast
      ring
    rw [hc]
    generalize hq : roundHalfUpMag n.natAbs (2 * h) * (2 * h) = q at hb1 hb2 ⊢
    omega
  · rw [if_neg hn]
    have hc : -(roundHalfUpMag n.natAbs (2 * h) : Int) * (2 * (h : Int)) =
        -((roundHalfUpMag n.natAbs (2 * h) * (2 * h) : Nat) : Int) := by
      push_cast
      ring
    rw [hc]
    generalize hq : roundHalfUpMag n.natAbs (2 * h) * (2 * h) = q at hb1 hb2 ⊢
    omega

end PB

namespace PB

/-- A successful `quantize2dp` on a finite value yields exponent `-2` with
the coefficient computed by the exact-or-rounding rule. -/
theorem quantize2dp_finite_ok {c e : Int} {res : PyDec}
    (hq : quantize2dp (.finite c e) = .ok res) :
    res = .finite (if -2 ≤ e then c * (10 : Int) ^ (e + 2).toNat
      else roundHalfUpInt c ((10 : Nat) ^ (-2 - e).toNat)) (-2) := by
  simp only [quantize2dp] at hq
  by_cases he : -2 ≤ e
  · rw [if_pos he] at hq ⊢
    by_cases hb : (10 : Int) ^ 28 ≤ ((c * (10 : Int) ^ (e + 2).toNat).natAbs : Int)
    · rw [if_pos hb] at hq
      exact Except.noConfusion hq
    · rw [if_neg hb] at hq
      exact (Except.ok.inj hq).symm
  · rw [if_neg he] at hq ⊢
    by_cases hb : (10 : Int) ^ 28 ≤
        ((roundHalfUpInt c ((10 : Nat) ^ (-2 - e).toNat)).natAbs : Int)
    · rw [if_pos hb] at hq
      exact Except.noConfusion hq
    · rw [if_neg hb] at hq
      exact (Except.ok.inj hq).symm

/-- Value law of `quantize2dp`: the result (in hundredths) is within half
a cent of the input value, and an exact half-cent tie lands on the
side away from zero. -/
theorem quantize_value_law {c e c' : Int}
    (hq : quantize2dp (.finite c e) = .ok (.finite c' (-2))) :
    |(c' : ℚ) / 100 - (c : ℚ) * (10 : ℚ) ^ (e : ℤ)| ≤ 1 / 200 ∧
    (|(c' : ℚ) / 100 - (c : ℚ) * (10 : ℚ) ^ (e : ℤ)| = 1 / 200 →
      |(c : ℚ) * (10 : ℚ) ^ (e : ℤ)| ≤ |(c' : ℚ) / 100|) := by
  have hres := quantize2dp_finite_ok hq
  rw [PyDec.finite.injEq] at hres
  have hc' := hres.1
  by_cases he : -2 ≤ e
  · rw [if_pos he] at hc'
    have hte : (((e + 2).toNat : ℕ) : ℤ) = e + 2 := Int.toNat_of_nonneg (by omega)
    have hzero : (c' : ℚ) / 100 - (c : ℚ) * (10 : ℚ) ^ (e : ℤ) = 0 := by
      have hcast : (c' : ℚ) = (c : ℚ) * (10 : ℚ) ^ ((e + 2).toNat : ℕ) := by
        rw [hc']
        push_cast
        ring
      have hz : (10 : ℚ) ^ ((e + 2).toNat : ℕ) = (10 : ℚ) ^ ((e : ℤ) + 2) := by
        rw [← zpow_natCast (10 : ℚ) ((e + 2).toNat), hte]
      have hsplit : (10 : ℚ) ^ ((e : ℤ) + 2) = (10 : ℚ) ^ (e : ℤ) * 100 := by
        rw [zpow_add₀ (by norm_num : (10 : ℚ) ≠ 0)]
        norm_num
      rw [hcast, hz, hsplit]
      ring
    rw [hzero]
    norm_num
  · rw [if_neg he] at hc'
    set k := (-2 - e).toNat with hkdef
    have hke : ((k : ℕ) : ℤ) = -2 - e := Int.toNat_of_nonneg (by omega)
    have hk1 : 1 ≤ k := by omega
    set h₅ := 5 * 10 ^ (k - 1) with h5def
    have h5pos : 0 < h₅ := by positivity
    have h2h : (10 : ℕ) ^ k = 2 * h₅ := by
      rw [h5def]
      have hpow : (10 : ℕ) ^ k = 10 * 10 ^ (k - 1) := by
        conv_lhs => rw [show k = (k - 1) + 1 from by omega]
        rw [pow_succ]
        ring
      rw [hpow]
      ring
    rw [h2h] at hc'
    obtain ⟨hs1, hs2⟩ := roundHalfUpInt_spec c h₅ h5pos
    rw [← hc'] at hs1 hs2
    set D : ℚ := (10 : ℚ) ^ (k : ℕ) with hDdef
    have hDq : D = 2 * (h₅ : ℚ) := by
      have hcast : ((2 * h₅ : ℕ) : ℚ) = (10 : ℚ) ^ (k : ℕ) := by
        rw [← h2h]
        push_cast
        ring
      rw [hDdef, ← hcast]
      push_cast
      ring
    have hDpos : (0 : ℚ) < D := by
      rw [hDq]
      positivity
    have hdenpos : (0 : ℚ) < 100 * D := by positivity
    have h10e : (10 : ℚ) ^ (e : ℤ) = ((100 : ℚ) * D)⁻¹ := by
      have hee : (e : ℤ) = -(((k : ℕ) : ℤ) + 2) := by omega
      rw [hee, zpow_neg]
      congr 1
      rw [zpow_add₀ (by norm_num : (10 : ℚ) ≠ 0), zpow_natCast]
      rw [← hDdef]
      norm_num
      ring
    have hnum : (c' : ℚ) / 100 - (c : ℚ) * (10 : ℚ) ^ (e : ℤ) =
        ((c' * (2 * (h₅ : ℤ)) - c : ℤ) : ℚ) / (100 * D) := by
      rw [h10e, hDq]
      push_cast
      have h5ne : (h₅ : ℚ) ≠ 0 := by positivity
      field_simp
      ring
    have habs : |(c' : ℚ) / 100 - (c : ℚ) * (10 : ℚ) ^ (e : ℤ)| =
        (((c' * (2 * (h₅ : ℤ)) - c).natAbs : ℕ) : ℚ) / (100 * D) := by
      rw [hnum, abs_div, abs_of_pos hdenpos, Int.cast_natAbs, Int.cast_abs]
    have h200 : (h₅ : ℚ) / (100 * D) = 1 / 200 := by
      rw [hDq]
      have h5ne : (h₅ : ℚ) ≠ 0 := by positivity
      field_simp
      ring
    constructor
    · rw [habs]
      have hle : (((c' * (2 * (h₅ : ℤ)) - c).natAbs : ℕ) : ℚ) ≤ (h₅ : ℚ) := by
        exact_mod_cast hs1
      calc (((c' * (2 * (h₅ : ℤ)) - c).natAbs : ℕ) : ℚ) / (100 * D)
          ≤ (h₅ : ℚ) / (100 * D) := by
            exact (div_le_div_iff_of_pos_right hdenpos).mpr hle
        _ = 1 / 200 := h200
    · intro htie
      rw [habs, ← h200] at htie
      have hnatq : (((c' * (2 * (h₅ : ℤ)) - c).natAbs : ℕ) : ℚ) = (h₅ : ℚ) := by
        rw [div_eq_div_iff (ne_of_gt hdenpos) (ne_of_gt hdenpos)] at htie
        exact mul_right_cancel₀ (ne_of_gt hdenpos) htie
      have hnat : (c' * (2 * (h₅ : ℤ)) - c).natAbs = h₅ := by exact_mod_cast hnatq
      have hmag := hs2 hnat
      have hlhs : |(c : ℚ) * (10 : ℚ) ^ (e : ℤ)| = ((c.natAbs : ℕ) : ℚ) / (100 * D) := by
        rw [h10e, abs_mul, abs_inv, abs_of_pos hdenpos, Int.cast_natAbs,
          Int.cast_abs, div_eq_mul_inv]
      have hrhs : |(c' : ℚ) / 100| =
          (((c' * (2 * (h₅ : ℤ))).natAbs : ℕ) : ℚ) / (100 * D) := by
        have hquot : (c' : ℚ) / 100 = ((c' * (2 * (h₅ : ℤ)) : ℤ) : ℚ) / (100 * D) := by
          rw [hDq]
          push_cast
          have h5ne : (h₅ : ℚ) ≠ 0 := by positivity
          field_simp
          ring
        rw [hquot, abs_div, abs_of_pos hdenpos, Int.cast_natAbs, Int.cast_abs]
      rw [hlhs, hrhs]
      exact (div_le_div_iff_of_pos_right hdenpos).mpr (by exact_mod_cast hmag)

end PB

namespace PB

/-- C3: money rounding law.  Every value accepted by the normalizer comes
out with exactly 2 fractional digits (exponent `-2`); for every finite
accepted decimal string the result is the round-half-up quantization
of the parsed value — within half a cent, with an exact tie landing
away from zero (so `10.125 → 10.13` and `10.545 → 10.55`, not
banker's rounding); and leading zeros, an explicit `+` sign and
scientific notation are accepted (`1e-5 → 0.00`). -/
theorem claim_C3_money_rounding_law :
    (∀ s c e, parse_money_2dp s = .ok (.finite c e) → e = -2) ∧
    (∀ s c, parse_money_2dp s = .ok (.finite c (-2)) →
      ∃ c₀ e₀, pyDecOfString s = some (.finite c₀ e₀) ∧
        |(c : ℚ) / 100 - PyDec.valQ (.finite c₀ e₀)| ≤ 1 / 200 ∧
        (|(c : ℚ) / 100 - PyDec.valQ (.finite c₀ e₀)| = 1 / 200 →
          |PyDec.valQ (.finite c₀ e₀)| ≤ |(c : ℚ) / 100|)) ∧
    parse_money_2dp "10.125" = .ok (.finite 1013 (-2)) ∧
    parse_money_2dp "10.545" = .ok (.finite 1055 (-2)) ∧
    parse_money_2dp "1e-5" = .ok (.finite 0 (-2)) ∧
    parse_money_2dp "+10.50" = .ok (.finite 1050 (-2)) ∧
    parse_money_2dp "00010.50" = .ok (.finite 1050 (-2)) := by
  refine ⟨?_, ?_, by decide, by decide, by decide, by decide, by decide⟩
  · intro s c e h
    unfold parse_money_2dp at h
    cases hps : pyDecOfString s with
    | none => rw [hps] at h; exact Except.noConfusion h
    | some d =>
      rw [hps] at h
      cases d with
      | finite c₀ e₀ =>
        have := quantize2dp_finite_ok h
        rw [PyDec.finite.injEq] at this
        exact this.2
      | inf neg => exact Except.noConfusion h
      | nan sig =>
        cases sig with
        | false =>
          have : (PyDec.nan false) = .finite c e := Except.ok.inj h
          exact PyDec.noConfusion this
        | true => exact Except.noConfusion h
  · intro s c h
    unfold parse_money_2dp at h
    cases hps : pyDecOfString s with
    | none => rw [hps] at h; exact Except.noConfusion h
    | some d =>
      rw [hps] at h
      cases d with
      | finite c₀ e₀ =>
        refine ⟨c₀, e₀, rfl, ?_⟩
        exact quantize_value_law h
      | inf neg => exact Except.noConfusion h
      | nan sig =>
        cases sig with
        | false =>
          have : (PyDec.nan false) = .finite c (-2) := Except.ok.inj h
          exact PyDec.noConfusion this
        | true => exact Except.noConfusion h

/-- C3 witness: at `"10.125"` the accepted value has exponent `-2` and the
rounding law holds concretely. -/
theorem claim_C3_witness :
    (-2 : Int) = -2 ∧
    ∃ c₀ e₀, pyDecOfString "10.125" = some (.finite c₀ e₀) ∧
      |((1013 : Int) : ℚ) / 100 - PyDec.valQ (.finite c₀ e₀)| ≤ 1 / 200 ∧
      (|((1013 : Int) : ℚ) / 100 - PyDec.valQ (.finite c₀ e₀)| = 1 / 200 →
        |PyDec.valQ (.finite c₀ e₀)| ≤ |((1013 : Int) : ℚ) / 100|) :=
  ⟨claim_C3_money_rounding_law.1 "10.125" 1013 (-2) (by decide),
   claim_C3_money_rounding_law.2.1 "10.125" 1013 (by decide)⟩

end PB
